import Mathlib

/-!
Verification of the econometric analysis pipeline of
`dashboard/modules/economic_summary.py` (ASEAN FDI-GDP dashboard).

The numeric domain of the Python code (IEEE floats with NaN used for
missing data) is embedded as `Option ℚ`: `none` stands for a missing
value (NaN), `some x` for a present numeric value.  Pandas series become
`List (Option ℚ)`; a data frame column grouped by country becomes a list
of `(country, value)` pairs.
-/

namespace EconSummary

/-- Correlation banding, translated from `interpret_corr` in
`economic_summary.py`.  `none` is a NaN correlation (`pd.isna(r)`).
The cascade of `if` tests is evaluated top-down, first match wins. -/
def interpret_corr (r : Option ℚ) : String × String :=
  match r with
  | none => ("neutral", "tidak dapat dihitung")
  | some r =>
    if r > 7/10 then ("strong positive", "FDI sangat berhubungan dengan pertumbuhan GDP")
    else if r > 4/10 then ("moderate positive", "FDI cukup berkaitan dengan pertumbuhan GDP")
    else if r > 2/10 then ("weak positive", "FDI mungkin berdampak kecil terhadap GDP")
    else if r < -(2/10) then ("negative", "FDI mungkin bereaksi terhadap kontraksi ekonomi")
    else ("neutral", "hubungan lemah / tidak signifikan")

/-- Policy simulation, translated from the policy tab of `show`:
`pred = coef * uplift`. -/
def simulate (coef uplift : ℚ) : ℚ := coef * uplift

/-- Outcome of the policy-simulation tab: either the warning
"Koefisien FDI tidak tersedia dari model." (coefficient unavailable),
or a predicted GDP-growth delta. -/
inductive PolicyOutcome where
  | notSimulatable : PolicyOutcome
  | predicted (delta : ℚ) : PolicyOutcome
deriving DecidableEq

/-- The NaN guard of the policy tab, translated from
`coef = model.params.get("FDI_PctGDP", np.nan); if pd.isna(coef): ...
else: pred = coef * uplift`.  A missing/NaN coefficient is `none`. -/
def policyTab (coef : Option ℚ) (uplift : ℚ) : PolicyOutcome :=
  match coef with
  | none => .notSimulatable
  | some c => .predicted (simulate c uplift)

/-- Lag-order choice of the VAR tab, translated from
`p = int(sel.selected_orders.get("aic", 1) or 1)`: a missing AIC entry
(`none`) or a selected order of `0` (falsy in Python) falls back to `1`;
a positive selected order is used as is.  statsmodels selection orders
are natural numbers, so `Option ℕ` covers the reachable inputs. -/
def chooseLag (sel : Option ℕ) : ℕ :=
  match sel with
  | none => 1
  | some 0 => 1
  | some (n+1) => n+1

/-- Moving-average coefficient matrices of a bivariate VAR(p) with lag
matrices `A = [A_1, ..., A_p]`, as computed by `res.irf(5)`:
`Φ_0 = I` and `Φ_h = Σ_{i=1..min(h,p)} A_i · Φ_{h-i}`.  `maPhis A h` is
the list `[Φ_h, Φ_{h-1}, ..., Φ_0]`. -/
def maPhis (A : List (Matrix (Fin 2) (Fin 2) ℚ)) : ℕ → List (Matrix (Fin 2) (Fin 2) ℚ)
  | 0 => [1]
  | h+1 => ((A.zip (maPhis A h)).map (fun p => p.1 * p.2)).sum :: maPhis A h

/-- `Φ_h`, the head of `maPhis A h`. -/
def maPhi (A : List (Matrix (Fin 2) (Fin 2) ℚ)) (h : ℕ) : Matrix (Fin 2) (Fin 2) ℚ :=
  (maPhis A h).headD 1

/-- The IRF trajectory reported by the VAR tab, translated from
`irf = res.irf(5); irf_vals = irf.irfs[:, 0, 1]`: for each horizon step
0..5 the response of variable 0 (`GDP_Growth`) to a unit (needs no
orthogonalization: `irfs` are the plain MA matrices) shock to variable 1
(`FDI_PctGDP`). -/
def irfVals (A : List (Matrix (Fin 2) (Fin 2) ℚ)) : List ℚ :=
  (List.range 6).map (fun h => maPhi A h 0 1)

/-- Outcome of the Granger tab. -/
inductive GrangerOutcome where
  | insufficientData : GrangerOutcome
  | pvalues (ps : List ℚ) : GrangerOutcome
  | failure (msg : String) : GrangerOutcome
deriving DecidableEq

/-- The Granger tab, translated from `show`: the per-country bivariate
series `d` (missing rows dropped) is gated by `if len(d) < 8` before the
call of `grangercausalitytests`; the library call (parameter `lib`,
statsmodels) may return p-values or raise (caught, reported). -/
def grangerTab (lib : List (ℚ × ℚ) → Except String (List ℚ))
    (d : List (ℚ × ℚ)) : GrangerOutcome :=
  if d.length < 8 then .insufficientData
  else
    match lib d with
    | .ok ps => .pvalues ps
    | .error e => .failure e

/-- Outcome of the VAR-IRF tab. -/
inductive VarOutcome where
  | insufficientData : VarOutcome
  | trajectory (vals : List ℚ) : VarOutcome
  | failure (msg : String) : VarOutcome
deriving DecidableEq

/-- The VAR tab, translated from `show`: gate `if len(d) < 10`, then
AIC lag selection (`selLib`, statsmodels `select_order`, with the
`or 1` fallback `chooseLag`), then the fit (`fitLib`, returning the lag
coefficient matrices, exceptions caught), then the IRF trajectory. -/
def varTab (selLib : List (ℚ × ℚ) → Option ℕ)
    (fitLib : List (ℚ × ℚ) → ℕ → Except String (List (Matrix (Fin 2) (Fin 2) ℚ)))
    (d : List (ℚ × ℚ)) : VarOutcome :=
  if d.length < 10 then .insufficientData
  else
    match fitLib d (chooseLag (selLib d)) with
    | .ok A => .trajectory (irfVals A)
    | .error e => .failure e

/-- The non-missing values of a series, in series order
(`s.dropna()`). -/
def presentVals (s : List (Option ℚ)) : List ℚ := s.filterMap id

/-- The non-missing values of a series in ascending order (the sorted
values pandas `Series.quantile` interpolates over). -/
def sortedVals (s : List (Option ℚ)) : List ℚ :=
  List.insertionSort (fun a b => a ≤ b) (presentVals s)

/-- Element `i` of a sorted value list, clamped to the last element for
out-of-range indices (only used at indices ≤ length). -/
def nthC (v : List ℚ) (i : ℕ) : ℚ := v.getD (min i (v.length - 1)) 0

/-- Linear interpolation at fractional position `h` over the sorted
values `v` — the `interpolation='linear'` rule of pandas `quantile`:
with `i = ⌊h⌋`, the value is `v_i + (h - i) * (v_{i+1} - v_i)`. -/
def interpQ (v : List ℚ) (h : ℚ) : ℚ :=
  nthC v (⌊h⌋).toNat +
    (h - ((⌊h⌋).toNat : ℚ)) * (nthC v ((⌊h⌋).toNat + 1) - nthC v (⌊h⌋).toNat)

/-- `s.quantile(q)`: linear interpolation at position `q * (n - 1)` over
the `n` sorted non-missing values of `s`. -/
def quantileQ (s : List (Option ℚ)) (q : ℚ) : ℚ :=
  interpQ (sortedVals s) (q * (((sortedVals s).length : ℚ) - 1))

/-- `winsorize(s, q)`, translated from `economic_summary.py`:
if `s.dropna()` is empty return `s` unchanged, otherwise clip every
present value to `[s.quantile(q), s.quantile(1 - q)]`; missing entries
stay missing (`Series.clip` leaves NaN in place). -/
def winsorize (s : List (Option ℚ)) (q : ℚ) : List (Option ℚ) :=
  if presentVals s = [] then s
  else
    let lo := quantileQ s q
    let hi := quantileQ s (1 - q)
    s.map (fun x => x.map (fun a => min hi (max lo a)))

/-- Occurrence counter used by `scatterAux`: one more `c` row has been
emitted. -/
def bump (c : String) (cnt : String → ℕ) : String → ℕ :=
  fun e => if e = c then cnt e + 1 else cnt e

/-- Scatter step of a pandas groupby-transform: each row keeps its key
and position, and receives the next unused element of its group's
transformed value list `g key`. -/
def scatterAux {α β : Type} [Inhabited β] (g : String → List β) :
    List (String × α) → (String → ℕ) → List (String × β)
  | [], _ => []
  | (c, _) :: rest, cnt =>
    (c, (g c).getD (cnt c) default) :: scatterAux g rest (bump c cnt)

/-- The column values of group `c`, in row order. -/
def valsOf {α : Type} (c : String) (df : List (String × α)) : List α :=
  (df.filter (fun r => r.1 == c)).map (fun r => r.2)

/-- `df.groupby(key)[col].transform(f)`: each group's subseries is
replaced by `f` of that subseries, values re-aligned positionally. -/
def groupTransform {α β : Type} [Inhabited β] (f : String → List α → List β)
    (df : List (String × α)) : List (String × β) :=
  scatterAux (fun c => f c (valsOf c df)) df (fun _ => 0)

/-- The per-country winsorization of the pipeline, translated from
`df.groupby("Country Name")[col].transform(lambda s: winsorize(s, 0.01))`. -/
def winsorizeByCountry (df : List (String × Option ℚ)) : List (String × Option ℚ) :=
  groupTransform (fun _ s => winsorize s (1/100)) df

/-- Concrete panels for the C5 witness: they agree on Indonesia's rows
and differ on the other countries' rows. -/
def dfNI1 : List (String × Option ℚ) :=
  [("Indonesia", some 1), ("Malaysia", some 5), ("Indonesia", some 2)]

/-- Second concrete panel for the C5 witness. -/
def dfNI2 : List (String × Option ℚ) :=
  [("Indonesia", some 1), ("Malaysia", some 50), ("Vietnam", some 7), ("Indonesia", some 2)]

/-- Lexicographic code-point comparison of character lists — the string
order `<` used when pandas sorts a string index. -/
def strLtb : List Char → List Char → Bool
  | [], [] => false
  | [], _ :: _ => true
  | _ :: _, [] => false
  | x :: xs, y :: ys => if x < y then true else if y < x then false else strLtb xs ys

/-- Lexicographic (country, year) order used by
`df.set_index(["Country Name", "Year"]).sort_index()`.  A panel row is
`(country, (year, growth))`. -/
def sortPanel (df : List (String × (ℤ × ℚ))) : List (String × (ℤ × ℚ)) :=
  List.insertionSort
    (fun a b => strLtb a.1.data b.1.data = true ∨ (a.1 = b.1 ∧ a.2.1 ≤ b.2.1)) df

/-- A positional one-step lag over one entity's (year, growth) rows:
row `i` is paired with the growth of row `i - 1`, row `0` with `none` —
the semantics of `groupby(level=0)["GDP_Growth"].shift(1)`. -/
def addLag (vals : List (ℤ × ℚ)) : List ((ℤ × ℚ) × Option ℚ) :=
  vals.zip (none :: vals.map (fun p => some p.2))

/-- The lag-augmented panel, translated from
`panel = df.set_index(["Country Name", "Year"]).sort_index();
panel["GDP_Growth_l1"] = panel.groupby(level=0)["GDP_Growth"].shift(1)`:
sort by (country, year), then shift each country's growth column down by
one position within the group. -/
def lagPanel (df : List (String × (ℤ × ℚ))) : List (String × ((ℤ × ℚ) × Option ℚ)) :=
  groupTransform (fun _ vals => addLag vals) (sortPanel df)

/-- The first (minimal) observed year of entity `c` in `df`. -/
def firstYearOf (df : List (String × (ℤ × ℚ))) (c : String) : Option ℤ :=
  ((df.filter (fun r => r.1 == c)).map (fun r => r.2.1)).min?

/-- The growth of entity `c` at year `y` in `df`, when observed. -/
def yearLookup (df : List (String × (ℤ × ℚ))) (c : String) (y : ℤ) : Option ℚ :=
  (df.find? (fun r => r.1 == c && r.2.1 == y)).map (fun r => r.2.2)

/-- Claim C2 as stated: in the lag-augmented panel, the lag is absent at
each entity's first time point, and at every other time point `t` it
equals that same entity's growth at time `t - 1`. -/
def C2Statement (df : List (String × (ℤ × ℚ))) : Prop :=
  ∀ (c : String) (yr : ℤ) (g : ℚ) (l : Option ℚ),
    (c, ((yr, g), l)) ∈ lagPanel df →
      if firstYearOf df c = some yr then l = none
      else ∃ g0, yearLookup df c (yr - 1) = some g0 ∧ l = some g0

/-- A concrete single-entity panel with an interior time gap
(years 1, 2, 4). -/
def dfGap : List (String × (ℤ × ℚ)) := [("A", (1, 10)), ("A", (2, 20)), ("A", (4, 30))]

/-- Dot product of two coefficient lists. -/
def dotL (xs ys : List ℚ) : ℚ := (List.zipWith (fun a b => a * b) xs ys).sum

/-- The Gram matrix `Xᵀ·X` of a design matrix (columns via transpose). -/
def normalMat (rows : List (List ℚ)) : List (List ℚ) :=
  rows.transpose.map (fun ci => rows.transpose.map (fun cj => dotL ci cj))

/-- The moment vector `Xᵀ·y`. -/
def normalVec (rows : List (List ℚ)) (y : List ℚ) : List ℚ :=
  rows.transpose.map (fun ci => dotL ci y)

/-- Matrix-vector product, row-major. -/
def matVecL (rows : List (List ℚ)) (v : List ℚ) : List ℚ :=
  rows.map (fun row => dotL row v)

/-- First row with a nonzero leading entry, plus the remaining rows in
order (`none` when every leading entry is zero). -/
def findPivot : List (List ℚ) → Option (List ℚ × List (List ℚ))
  | [] => none
  | r :: rest =>
    if r.headD 0 = 0 then
      match findPivot rest with
      | none => none
      | some (p, others) => some (p, r :: others)
    else some (r, rest)

/-- Gaussian elimination with back substitution on an augmented system
of `m` unknowns (each row: `m` coefficients and a right-hand side).
Returns `none` when a pivot cannot be found (singular system). -/
def solveLin : ℕ → List (List ℚ) → Option (List ℚ)
  | 0, _ => some []
  | m + 1, rows =>
    match findPivot rows with
    | none => none
    | some (p, rest) =>
      let pv := p.headD 0
      let pTail := p.tail.map (fun a => a / pv)
      let rest2 := rest.map (fun r => List.zipWith (fun a b => a - r.headD 0 * b) r.tail pTail)
      match solveLin m rest2 with
      | none => none
      | some xs => some ((pTail.getLastD 0 - dotL pTail.dropLast xs) :: xs)

/-- Least-squares fit: the solution of the normal equations
`XᵀX β = Xᵀy`, the unique least-squares coefficient vector when the
Gram matrix is nonsingular. -/
def lstsq (rows : List (List ℚ)) (y : List ℚ) : Option (List ℚ) :=
  solveLin rows.transpose.length
    (List.zipWith (fun r b => r ++ [b]) (normalMat rows) (normalVec rows y))

/-- A row of the lag-augmented regression panel `pdata`:
(country, year, growth, investment share, lagged growth), all present
(listwise deletion done). -/
structure PRow where
  country : String
  year : ℤ
  growth : ℚ
  fdi : ℚ
  lag : ℚ
deriving DecidableEq

/-- Lexicographic (country, year) sort of the joined df rows
`(country, (year, (growth, fdi)))`. -/
def sortJoined (df : List (String × (ℤ × ℚ × ℚ))) : List (String × (ℤ × ℚ × ℚ)) :=
  List.insertionSort
    (fun a b => strLtb a.1.data b.1.data = true ∨ (a.1 = b.1 ∧ a.2.1 ≤ b.2.1)) df

/-- The lag-augmented, listwise-deleted panel built identically by the
panel tab and the policy tab:
`panel = df.set_index([...]).sort_index();
panel["GDP_Growth_l1"] = panel.groupby(level=0)["GDP_Growth"].shift(1);
pdata = panel.dropna(subset=[...])` — per country (in sorted order) the
first row is dropped and every later row carries the previous row's
growth as its lag. -/
def mkPdata (df : List (String × (ℤ × ℚ × ℚ))) : List PRow :=
  let sorted := sortJoined df
  let cs := (sorted.map (fun r => r.1)).dedup
  (cs.map (fun c =>
    let vals := sorted.filter (fun r => r.1 == c)
    let lags : List (Option ℚ) := none :: vals.map (fun r => some r.2.2.1)
    (vals.zip lags).filterMap (fun rl =>
      rl.2.map (fun lv => PRow.mk rl.1.1 rl.1.2.1 rl.1.2.2.1 rl.1.2.2.2 lv)))).flatten

/-- The design matrix of the pooled OLS used by the policy tab and the
panel tab's fallback: `X = sm.add_constant(pdata_[["FDI_PctGDP",
"GDP_Growth_l1"]])` — columns (constant, fdi, lag). -/
def olsDesign (p : List PRow) : List (List ℚ) := p.map (fun r => [1, r.fdi, r.lag])

/-- Modelled from the spec: the design matrix of the two-way
fixed-effects regression `GDP_Growth ~ 1 + FDI_PctGDP + GDP_Growth_l1 +
EntityEffects + TimeEffects` fitted by `linearmodels.PanelOLS` (library
not part of this repository).  Entity and time effects are absorbed
means, equivalent to least squares on indicator columns for every
entity and year but the first; the coefficient on `FDI_PctGDP` is
unaffected by which indicators are dropped. -/
def feDesign (p : List PRow) : List (List ℚ) :=
  let ents := (p.map (fun r => r.country)).dedup
  let yrs := (p.map (fun r => r.year)).dedup
  p.map (fun r =>
    [1, r.fdi, r.lag]
      ++ (ents.drop 1).map (fun e => if r.country = e then (1 : ℚ) else 0)
      ++ (yrs.drop 1).map (fun t => if r.year = t then (1 : ℚ) else 0))

/-- The pooled-OLS coefficient on `FDI_PctGDP`
(`model.params.get("FDI_PctGDP", np.nan)` of the `sm.OLS` fit). -/
def olsFdiCoefOf (p : List PRow) : Option ℚ :=
  (lstsq (olsDesign p) (p.map (fun r => r.growth))).map (fun beta => beta.getD 1 0)

/-- The fixed-effects coefficient on `FDI_PctGDP` (the `PanelOLS` fit,
modelled from the spec as the least-squares fit of `feDesign`). -/
def feFdiCoefOf (p : List PRow) : Option ℚ :=
  (lstsq (feDesign p) (p.map (fun r => r.growth))).map (fun beta => beta.getD 1 0)

/-- The coefficient the policy tab multiplies the shock by: it refits a
pooled `sm.OLS` on its own rebuilt `pdata` (lines 390-395), whatever
`HAS_LM` is. -/
def simCoefficient (df : List (String × (ℤ × ℚ × ℚ))) : Option ℚ :=
  olsFdiCoefOf (mkPdata df)

/-- The coefficient reported by the panel tab: the `PanelOLS`
fixed-effects fit when `linearmodels` is available (`HAS_LM`), else the
pooled-OLS fallback (statsmodels assumed present). -/
def panelCoefficient (hasLM : Bool) (df : List (String × (ℤ × ℚ × ℚ))) : Option ℚ :=
  match hasLM with
  | true => feFdiCoefOf (mkPdata df)
  | false => olsFdiCoefOf (mkPdata df)

/-- Concrete joined panel for the C1 counterexample: two countries,
years 1..5, rows `(country, (year, (growth, fdi)))`. -/
def dfC1 : List (String × (ℤ × ℚ × ℚ)) :=
  [("A", (1, (1, 1))), ("A", (2, (2, 1))), ("A", (3, (1, 2))), ("A", (4, (3, 1))),
   ("A", (5, (2, 2))),
   ("B", (1, (2, 2))), ("B", (2, (1, 3))), ("B", (3, (3, 1))), ("B", (4, (2, 3))),
   ("B", (5, (4, 2)))]

/-- The lag-augmented panel of `dfC1`, written out. -/
def pdataC1 : List PRow :=
  [⟨"A", 2, 2, 1, 1⟩, ⟨"A", 3, 1, 2, 2⟩, ⟨"A", 4, 3, 1, 1⟩, ⟨"A", 5, 2, 2, 3⟩,
   ⟨"B", 2, 1, 3, 2⟩, ⟨"B", 3, 3, 1, 1⟩, ⟨"B", 4, 2, 3, 3⟩, ⟨"B", 5, 4, 2, 2⟩]

/-- The pooled-OLS solution of the normal equations at `pdataC1`. -/
def betaOLS : List ℚ := [45/14, -(53/70), 17/70]

/-- The fixed-effects solution of the normal equations at `pdataC1`. -/
def betaFE : List ℚ := [155/52, -(15/26), -(15/26), 14/13, 11/52, 67/52, 27/13]

/-- Concrete 5-observation series used in the C6 witness. -/
def shortSeries : List (ℚ × ℚ) := [(1, 2), (2, 1), (3, 3), (2, 2), (1, 1)]

/-- Concrete series used in the C4 witness: eleven present values
`1..10, 100` and one missing entry. -/
def wSeries : List (Option ℚ) :=
  [some 1, none, some 100, some 2, some 3, some 4, some 5, some 6,
   some 7, some 8, some 9, some 10]

end EconSummary

namespace EconSummary

/-- CLAIM C8: policy simulation is the pure function
`simulate coef uplift = coef * uplift`, hence linear and homogeneous:
doubling the shock doubles the simulated delta. -/
theorem simulate_linear_homogeneous (c s : ℚ) :
    simulate c s = c * s ∧ simulate c (2 * s) = 2 * simulate c s := by
  constructor
  · rfl
  · unfold simulate; ring

/-- CLAIM C9: when the fitted coefficient on `FDI_PctGDP` is unavailable
(NaN), the policy tab reports "not simulatable" for every shock value and
never reports a predicted delta — in particular never a delta of `0`. -/
theorem policyTab_missing_coef (uplift : ℚ) :
    policyTab none uplift = PolicyOutcome.notSimulatable ∧
      ∀ d : ℚ, policyTab none uplift ≠ PolicyOutcome.predicted d := by
  refine ⟨rfl, ?_⟩
  intro d h
  exact PolicyOutcome.noConfusion h

/-- CLAIM C3: correlation banding is total and deterministic, with the
exact strict-inequality bands obtained by evaluating the `if` cascade
top-down: "strong positive" iff r > 0.70, "moderate positive" iff
0.40 < r ≤ 0.70, "weak positive" iff 0.20 < r ≤ 0.40, "negative" iff
r < −0.20, "neutral" iff −0.20 ≤ r ≤ 0.20; NaN gives "neutral" with the
uncomputable note; and the concrete evaluations of the claim hold:
0.71 → strong positive, 0.40 → weak positive, −0.25 → negative,
0.05 → neutral. -/
theorem interpret_corr_bands :
    (∀ r : ℚ,
      ((interpret_corr (some r)).1 = "strong positive" ↔ 7/10 < r) ∧
      ((interpret_corr (some r)).1 = "moderate positive" ↔ 4/10 < r ∧ r ≤ 7/10) ∧
      ((interpret_corr (some r)).1 = "weak positive" ↔ 2/10 < r ∧ r ≤ 4/10) ∧
      ((interpret_corr (some r)).1 = "negative" ↔ r < -(2/10)) ∧
      ((interpret_corr (some r)).1 = "neutral" ↔ -(2/10) ≤ r ∧ r ≤ 2/10)) ∧
    interpret_corr none = ("neutral", "tidak dapat dihitung") ∧
    (interpret_corr (some (71/100))).1 = "strong positive" ∧
    (interpret_corr (some (40/100))).1 = "weak positive" ∧
    (interpret_corr (some (-(25/100)))).1 = "negative" ∧
    (interpret_corr (some (5/100))).1 = "neutral" := by
  have hb : ∀ r : ℚ,
      ((interpret_corr (some r)).1 = "strong positive" ↔ 7/10 < r) ∧
      ((interpret_corr (some r)).1 = "moderate positive" ↔ 4/10 < r ∧ r ≤ 7/10) ∧
      ((interpret_corr (some r)).1 = "weak positive" ↔ 2/10 < r ∧ r ≤ 4/10) ∧
      ((interpret_corr (some r)).1 = "negative" ↔ r < -(2/10)) ∧
      ((interpret_corr (some r)).1 = "neutral" ↔ -(2/10) ≤ r ∧ r ≤ 2/10) := by
    intro r
    simp only [interpret_corr]
    split_ifs with h1 h2 h3 h4 <;>
      refine ⟨?_, ?_, ?_, ?_, ?_⟩ <;>
      constructor <;> intro hh <;> first
        | rfl
        | exact h1
        | exact ⟨h2, le_of_not_lt h1⟩
        | exact ⟨h3, le_of_not_lt h2⟩
        | exact h4
        | exact ⟨le_of_not_lt h4, le_of_not_lt h3⟩
        | exact absurd hh (by decide)
        | (exfalso; linarith [hh.1, hh.2])
        | (exfalso; linarith)
  refine ⟨hb, rfl, ?_, ?_, ?_, ?_⟩
  · exact ((hb (71/100)).1).mpr (by norm_num)
  · exact ((hb (40/100)).2.2.1).mpr (by norm_num)
  · exact ((hb (-(25/100))).2.2.2.1).mpr (by norm_num)
  · exact ((hb (5/100)).2.2.2.2).mpr (by norm_num)

/-- CLAIM C6: minimum-observation gating.  With fewer than 8 paired
observations the Granger tab returns the insufficient-data warning —
no p-values, no crash — whatever the statistics library would do; with
fewer than 10 paired observations the VAR tab returns the
insufficient-data warning and fits no model. -/
theorem min_obs_gating
    (lib : List (ℚ × ℚ) → Except String (List ℚ))
    (selLib : List (ℚ × ℚ) → Option ℕ)
    (fitLib : List (ℚ × ℚ) → ℕ → Except String (List (Matrix (Fin 2) (Fin 2) ℚ)))
    (d e : List (ℚ × ℚ)) (hd : d.length < 8) (he : e.length < 10) :
    (grangerTab lib d = .insufficientData ∧
      ∀ ps, grangerTab lib d ≠ .pvalues ps) ∧
    (varTab selLib fitLib e = .insufficientData ∧
      ∀ vs, varTab selLib fitLib e ≠ .trajectory vs) := by
  have hg : grangerTab lib d = .insufficientData := by
    unfold grangerTab; rw [if_pos hd]
  have hv : varTab selLib fitLib e = .insufficientData := by
    unfold varTab; rw [if_pos he]
  refine ⟨⟨hg, ?_⟩, hv, ?_⟩
  · intro ps h; rw [hg] at h; exact GrangerOutcome.noConfusion h
  · intro vs h; rw [hv] at h; exact VarOutcome.noConfusion h

/-- Witness for C6 at a concrete 5-point series (below both thresholds),
with a concrete stand-in library. -/
theorem min_obs_gating_witness :
    (grangerTab (fun _ => .ok [1/2]) shortSeries = .insufficientData ∧
      ∀ ps, grangerTab (fun _ => .ok [1/2]) shortSeries ≠ .pvalues ps) ∧
    (varTab (fun _ => some 2) (fun _ _ => .ok []) shortSeries = .insufficientData ∧
      ∀ vs, varTab (fun _ => some 2) (fun _ _ => .ok []) shortSeries ≠ .trajectory vs) :=
  min_obs_gating (fun _ => .ok [1/2]) (fun _ => some 2) (fun _ _ => .ok [])
    shortSeries shortSeries (by decide) (by decide)

/-- CLAIM C7: the VAR tab's lag order is the AIC selection with fallback
to 1 when selection fails (`none`) or returns the non-positive order 0;
a positive selection is kept, the chosen order is always ≥ 1 and stays
within the candidate bound 3; and the reported IRF trajectory has one
value per horizon step 0..5 (six values), the h-th being the response of
growth (variable 0) to a unit FDI shock (variable 1) after h steps —
zero at step 0 since `Φ_0` is the identity. -/
theorem var_lag_selection_and_irf :
    chooseLag none = 1 ∧
    chooseLag (some 0) = 1 ∧
    (∀ n : ℕ, 0 < n → chooseLag (some n) = n) ∧
    (∀ sel, 1 ≤ chooseLag sel) ∧
    (∀ k : ℕ, k ≤ 3 → chooseLag (some k) ≤ 3) ∧
    (∀ A, (irfVals A).length = 6) ∧
    (∀ A h, h < 6 → (irfVals A).getD h 0 = maPhi A h 0 1) ∧
    (∀ A, (irfVals A).getD 0 0 = 0) := by
  have hval : ∀ A h, h < 6 → (irfVals A).getD h 0 = maPhi A h 0 1 := by
    intro A h hh
    have hlen : h < ((List.range 6).map (fun h => maPhi A h 0 1)).length := by
      simpa using hh
    unfold irfVals
    rw [List.getD_eq_getElem _ _ hlen]
    simp
  refine ⟨rfl, rfl, ?_, ?_, ?_, ?_, hval, ?_⟩
  · intro n hn
    cases n with
    | zero => omega
    | succ m => rfl
  · intro sel
    rcases sel with _ | n
    · exact le_refl 1
    · cases n with
      | zero => exact le_refl 1
      | succ m => exact Nat.succ_le_succ (Nat.zero_le m)
  · intro k hk
    cases k with
    | zero => decide
    | succ m => simpa [chooseLag] using hk
  · intro A
    simp [irfVals]
  · intro A
    rw [hval A 0 (by norm_num)]
    have h1 : maPhi A 0 = 1 := rfl
    rw [h1]
    exact Matrix.one_apply_ne (by decide)

/-- CLAIM C10: `winsorize` preserves the shape and missingness pattern
of its input — same length, and an entry is missing in the output iff it
is missing in the input. -/
theorem winsorize_shape (s : List (Option ℚ)) (q : ℚ) :
    (winsorize s q).length = s.length ∧
    (winsorize s q).map Option.isNone = s.map Option.isNone := by
  unfold winsorize
  split_ifs with h
  · exact ⟨rfl, rfl⟩
  · refine ⟨by simp, ?_⟩
    simp only [List.map_map]
    apply List.map_congr_left
    intro x _
    cases x <;> rfl

/-- The sorted non-missing values are sorted. -/
theorem sortedVals_sorted (s : List (Option ℚ)) :
    List.Sorted (fun a b : ℚ => a ≤ b) (sortedVals s) :=
  List.sorted_insertionSort _ _

/-- Clamped indexing into a sorted list is monotone in the index. -/
theorem nthC_mono (v : List ℚ) (hs : List.Sorted (fun a b : ℚ => a ≤ b) v)
    (i j : ℕ) (hij : i ≤ j) : nthC v i ≤ nthC v j := by
  cases v with
  | nil => simp [nthC]
  | cons a t =>
    have h1 : min i ((a :: t).length - 1) < (a :: t).length := by
      simp only [List.length_cons]; omega
    have h2 : min j ((a :: t).length - 1) < (a :: t).length := by
      simp only [List.length_cons]; omega
    unfold nthC
    rw [List.getD_eq_getElem _ _ h1, List.getD_eq_getElem _ _ h2]
    have hle : (⟨min i ((a :: t).length - 1), h1⟩ : Fin (a :: t).length) ≤
        ⟨min j ((a :: t).length - 1), h2⟩ := by
      simp only [Fin.mk_le_mk]
      omega
    simpa using hs.rel_get_of_le hle

/-- Piecewise-linear interpolation over a sorted list is monotone on
nonnegative positions. -/
theorem interpQ_mono (v : List ℚ) (hs : List.Sorted (fun a b : ℚ => a ≤ b) v)
    (h1 h2 : ℚ) (h0 : 0 ≤ h1) (h12 : h1 ≤ h2) : interpQ v h1 ≤ interpQ v h2 := by
  have hf1 : (0 : ℤ) ≤ ⌊h1⌋ := Int.floor_nonneg.mpr h0
  have hf2 : (0 : ℤ) ≤ ⌊h2⌋ := Int.floor_nonneg.mpr (h0.trans h12)
  have hc1 : (((⌊h1⌋).toNat : ℚ)) = ((⌊h1⌋ : ℤ) : ℚ) := by
    exact_mod_cast congrArg (fun z : ℤ => (z : ℚ)) (Int.toNat_of_nonneg hf1)
  have hc2 : (((⌊h2⌋).toNat : ℚ)) = ((⌊h2⌋ : ℤ) : ℚ) := by
    exact_mod_cast congrArg (fun z : ℤ => (z : ℚ)) (Int.toNat_of_nonneg hf2)
  have hi1 : (((⌊h1⌋).toNat : ℚ)) ≤ h1 := by rw [hc1]; exact Int.floor_le h1
  have hi1' : h1 < (((⌊h1⌋).toNat : ℚ)) + 1 := by rw [hc1]; exact Int.lt_floor_add_one h1
  have hi2 : (((⌊h2⌋).toNat : ℚ)) ≤ h2 := by rw [hc2]; exact Int.floor_le h2
  have hii : (⌊h1⌋).toNat ≤ (⌊h2⌋).toNat :=
    Int.toNat_le_toNat (Int.floor_le_floor h12)
  have hba1 : nthC v (⌊h1⌋).toNat ≤ nthC v ((⌊h1⌋).toNat + 1) :=
    nthC_mono v hs _ _ (by omega)
  have hba2 : nthC v (⌊h2⌋).toNat ≤ nthC v ((⌊h2⌋).toNat + 1) :=
    nthC_mono v hs _ _ (by omega)
  rcases eq_or_lt_of_le hii with heq | hlt
  · unfold interpQ
    rw [← heq]
    nlinarith [mul_le_mul_of_nonneg_right (sub_le_sub_right h12 (((⌊h1⌋).toNat : ℚ)))
      (sub_nonneg.mpr hba1)]
  · have s1 : interpQ v h1 ≤ nthC v ((⌊h1⌋).toNat + 1) := by
      unfold interpQ
      nlinarith [mul_nonneg (by linarith : (0:ℚ) ≤ 1 - (h1 - (((⌊h1⌋).toNat : ℚ))))
        (sub_nonneg.mpr hba1)]
    have s2 : nthC v ((⌊h1⌋).toNat + 1) ≤ nthC v (⌊h2⌋).toNat :=
      nthC_mono v hs _ _ (by omega)
    have s3 : nthC v (⌊h2⌋).toNat ≤ interpQ v h2 := by
      unfold interpQ
      nlinarith [mul_nonneg (by linarith : (0:ℚ) ≤ h2 - (((⌊h2⌋).toNat : ℚ)))
        (sub_nonneg.mpr hba2)]
    linarith

/-- The empirical quantile is monotone in the quantile level (series
with at least one present value). -/
theorem quantileQ_mono (s : List (Option ℚ)) (q1 q2 : ℚ)
    (h0 : 0 ≤ q1) (h12 : q1 ≤ q2) (hne : presentVals s ≠ []) :
    quantileQ s q1 ≤ quantileQ s q2 := by
  have hlen : 1 ≤ (sortedVals s).length := by
    have hperm := List.perm_insertionSort (fun a b : ℚ => a ≤ b) (presentVals s)
    have : (sortedVals s).length = (presentVals s).length := hperm.length_eq
    rw [this]
    exact List.length_pos.mpr hne
  have hnn : (0 : ℚ) ≤ ((sortedVals s).length : ℚ) - 1 := by
    have : (1 : ℚ) ≤ ((sortedVals s).length : ℚ) := by exact_mod_cast hlen
    linarith
  exact interpQ_mono (sortedVals s) (sortedVals_sorted s) _ _
    (mul_nonneg h0 hnn) (mul_le_mul_of_nonneg_right h12 hnn)

/-- CLAIM C4: for 0 < q < 1/2, every present value of `winsorize s q`
lies in the closed band `[quantile(q), quantile(1-q)]` computed on `s`'s
own non-missing values; present values of `s` already inside the band
are returned unchanged at their position; and an all-missing series is
returned unchanged. -/
theorem winsorize_spec (s : List (Option ℚ)) (q : ℚ)
    (hq0 : 0 < q) (hq2 : q < 1/2) :
    (∀ x : ℚ, some x ∈ winsorize s q →
      quantileQ s q ≤ x ∧ x ≤ quantileQ s (1 - q)) ∧
    (∀ (i : ℕ) (x : ℚ), s.getD i none = some x →
      quantileQ s q ≤ x → x ≤ quantileQ s (1 - q) →
      (winsorize s q).getD i none = some x) ∧
    ((∀ y ∈ s, y = none) → winsorize s q = s) := by
  by_cases hp : presentVals s = []
  · have hw : winsorize s q = s := by unfold winsorize; rw [if_pos hp]
    refine ⟨?_, ?_, fun _ => hw⟩
    · intro x hx
      rw [hw] at hx
      have hmem : x ∈ presentVals s := List.mem_filterMap.mpr ⟨some x, hx, rfl⟩
      rw [hp] at hmem
      exact absurd hmem (List.not_mem_nil x)
    · intro i x hx _ _
      rw [hw]; exact hx
  · have hband : quantileQ s q ≤ quantileQ s (1 - q) :=
      quantileQ_mono s q (1 - q) (le_of_lt hq0) (by linarith) hp
    have hw : winsorize s q =
        s.map (fun x => x.map (fun a => min (quantileQ s (1 - q)) (max (quantileQ s q) a))) := by
      unfold winsorize; rw [if_neg hp]
    refine ⟨?_, ?_, ?_⟩
    · intro x hx
      rw [hw] at hx
      obtain ⟨y, hy, hxy⟩ := List.mem_map.mp hx
      cases y with
      | none => exact Option.noConfusion hxy
      | some a =>
        simp only [Option.map_some', Option.some.injEq] at hxy
        subst hxy
        exact ⟨le_min hband (le_max_left _ _), min_le_left _ _⟩
    · intro i x hx hlo hhi
      have hi : i < s.length := by
        by_contra hcon
        push_neg at hcon
        rw [List.getD_eq_default _ _ hcon] at hx
        exact Option.noConfusion hx
      rw [List.getD_eq_getElem _ _ hi] at hx
      rw [hw, List.getD_eq_getElem _ _ (by simpa using hi), List.getElem_map, hx]
      simp only [Option.map_some', Option.some.injEq]
      rw [max_eq_right hlo, min_eq_right hhi]
    · intro hall
      exfalso
      obtain ⟨x, hx⟩ := List.exists_mem_of_ne_nil _ hp
      obtain ⟨a, ha, hax⟩ := List.mem_filterMap.mp hx
      rw [hall a ha] at hax
      exact Option.noConfusion hax

/-- The rows of group `A` after a scatter are exactly the successive
elements of `g A`, starting at the initial counter value. -/
theorem scatterAux_filter {α β : Type} [Inhabited β] (g : String → List β)
    (A : String) (df : List (String × α)) :
    ∀ cnt : String → ℕ,
      (scatterAux g df cnt).filter (fun r => r.1 == A) =
        (List.range (df.countP (fun r => r.1 == A))).map
          (fun k => (A, (g A).getD (cnt A + k) default)) := by
  induction df with
  | nil => intro cnt; simp [scatterAux]
  | cons hd tl ih =>
    intro cnt
    obtain ⟨c, v⟩ := hd
    rw [scatterAux]
    by_cases hc : c = A
    · subst hc
      rw [List.filter_cons_of_pos (by simp), List.countP_cons_of_pos _ _ (by simp)]
      rw [ih (bump c cnt), List.range_succ_eq_map]
      simp only [List.map_cons, List.map_map, Nat.add_zero]
      refine congrArg₂ _ rfl ?_
      apply List.map_congr_left
      intro k _
      have hb : bump c cnt c + k = cnt c + (k + 1) := by
        unfold bump
        rw [if_pos rfl]
        omega
      simp [hb]
    · rw [List.filter_cons_of_neg (by simp [hc]), List.countP_cons_of_neg _ _ (by simp [hc])]
      rw [ih (bump c cnt)]
      have hb : bump c cnt A = cnt A := by
        unfold bump
        rw [if_neg (fun h => hc h.symm)]
      rw [hb]

/-- The rows of group `A` after a groupby-transform are the transform of
`A`'s own subseries, positionally aligned. -/
theorem groupTransform_filter {α β : Type} [Inhabited β]
    (f : String → List α → List β) (df : List (String × α)) (A : String) :
    (groupTransform f df).filter (fun r => r.1 == A) =
      (List.range (df.countP (fun r => r.1 == A))).map
        (fun k => (A, (f A (valsOf A df)).getD k default)) := by
  unfold groupTransform
  rw [scatterAux_filter]
  simp

/-- CLAIM C5: per-entity winsorization is noninterfering — if two panels
agree on country `A`'s rows, the winsorized rows of `A` coincide, no
matter how the other countries' rows differ. -/
theorem winsorize_noninterference (df1 df2 : List (String × Option ℚ)) (A : String)
    (h : df1.filter (fun r => r.1 == A) = df2.filter (fun r => r.1 == A)) :
    (winsorizeByCountry df1).filter (fun r => r.1 == A) =
      (winsorizeByCountry df2).filter (fun r => r.1 == A) := by
  unfold winsorizeByCountry
  rw [groupTransform_filter, groupTransform_filter]
  have hv : valsOf A df1 = valsOf A df2 := by unfold valsOf; rw [h]
  have hcount : df1.countP (fun r => r.1 == A) = df2.countP (fun r => r.1 == A) := by
    rw [List.countP_eq_length_filter, List.countP_eq_length_filter, h]
  rw [hv, hcount]

/-- Witness for C5: two concrete panels agreeing on Indonesia but
differing on Malaysia (value changed) and Vietnam (row added). -/
theorem winsorize_noninterference_witness :
    (winsorizeByCountry dfNI1).filter (fun r => r.1 == "Indonesia") =
      (winsorizeByCountry dfNI2).filter (fun r => r.1 == "Indonesia") :=
  winsorize_noninterference dfNI1 dfNI2 "Indonesia" (by rfl)

/-- Reading a list off by successive positions reproduces the list. -/
theorem range_map_getD {β : Type} [Inhabited β] (l : List β) :
    (List.range l.length).map (fun k => l.getD k default) = l := by
  induction l with
  | nil => simp
  | cons x t ih =>
    rw [List.length_cons, List.range_succ_eq_map]
    simp only [List.map_cons, List.map_map]
    refine congrArg₂ _ rfl ?_
    calc (List.range t.length).map ((fun k => (x :: t).getD k default) ∘ Nat.succ)
        = (List.range t.length).map (fun k => t.getD k default) := by
          apply List.map_congr_left
          intro k _
          simp [List.getD_cons_succ]
      _ = t := ih

/-- `getD` distributes over `zip` at in-range positions. -/
theorem zip_getD {α β : Type} [Inhabited α] [Inhabited β]
    (l1 : List α) (l2 : List β) (i : ℕ) (h1 : i < l1.length) (h2 : i < l2.length) :
    (l1.zip l2).getD i default = (l1.getD i default, l2.getD i default) := by
  have hz : i < (l1.zip l2).length := by rw [List.length_zip]; omega
  rw [List.getD_eq_getElem _ _ hz, List.getD_eq_getElem _ _ h1,
    List.getD_eq_getElem _ _ h2]
  exact List.getElem_zip

/-- COUNTEREXAMPLE to CLAIM C2: on a panel whose single entity is
observed in years 1, 2 and 4 (interior gap at year 3), the code's
positional `shift(1)` gives the year-4 row the growth of year 2, while
the entity has no growth at time t−1 = 3 — so the lag does not equal
"growth at time t−1" as claimed. -/
theorem lag_not_time_based : ¬ C2Statement dfGap := by
  intro h
  have hmem : ("A", (((4 : ℤ), (30 : ℚ)), some 20)) ∈ lagPanel dfGap := by decide
  have hb := h "A" 4 30 (some 20) hmem
  rw [if_neg (by decide)] at hb
  obtain ⟨g0, hg, _⟩ := hb
  have hnone : yearLookup dfGap "A" (4 - 1) = none := by decide
  rw [hnone] at hg
  exact Option.noConfusion hg

/-- CLAIM C2 amended: the lag column is computed entity-locally — the
rows of entity `c` in the lag-augmented panel are exactly `addLag` of
`c`'s own (year-sorted) rows, never another entity's — and `addLag` is
the positional one-step lag: the first row's lag is absent, and row
`i+1`'s lag is the growth of row `i`, that entity's previous *observed*
time point (which is time t−1 exactly when no gap precedes it). -/
theorem lag_positional_spec :
    (∀ (df : List (String × (ℤ × ℚ))) (c : String),
      (lagPanel df).filter (fun r => r.1 == c) =
        (addLag (valsOf c (sortPanel df))).map (fun p => (c, p))) ∧
    (∀ vals : List (ℤ × ℚ), vals ≠ [] →
      (addLag vals).getD 0 default = (vals.getD 0 default, none)) ∧
    (∀ (vals : List (ℤ × ℚ)) (i : ℕ), i + 1 < vals.length →
      (addLag vals).getD (i + 1) default =
        (vals.getD (i + 1) default, some (vals.getD i default).2)) := by
  refine ⟨?_, ?_, ?_⟩
  · intro df c
    rw [show lagPanel df = groupTransform (fun _ vals => addLag vals) (sortPanel df) from rfl]
    rw [groupTransform_filter]
    have hlen : (sortPanel df).countP (fun r => r.1 == c) =
        (addLag (valsOf c (sortPanel df))).length := by
      rw [List.countP_eq_length_filter]
      unfold addLag valsOf
      rw [List.length_zip]
      simp
    rw [hlen]
    conv_rhs => rw [← range_map_getD (addLag (valsOf c (sortPanel df)))]
    rw [List.map_map]
    rfl
  · intro vals hv
    cases vals with
    | nil => exact absurd rfl hv
    | cons v t => rfl
  · intro vals i hi
    have h2 : i + 1 < (none :: vals.map (fun p => some p.2)).length := by
      simp only [List.length_cons, List.length_map]
      omega
    rw [show addLag vals = vals.zip (none :: vals.map (fun p => some p.2)) from rfl]
    rw [zip_getD _ _ _ hi h2]
    refine congrArg₂ _ rfl ?_
    rw [List.getD_cons_succ]
    rw [List.getD_eq_getElem _ _ (by rw [List.length_map]; omega), List.getElem_map,
      List.getD_eq_getElem _ _ (by omega : i < vals.length)]

/-- Witness for C2's amended theorem: the per-entity scatter equation at
the concrete gapped panel, and the positional-lag equation at row 1 of
its value list. -/
theorem lag_positional_spec_witness :
    ((lagPanel dfGap).filter (fun r => r.1 == "A") =
      (addLag (valsOf "A" (sortPanel dfGap))).map (fun p => ("A", p))) ∧
    (addLag [((1 : ℤ), (10 : ℚ)), (2, 20), (4, 30)]).getD (0 + 1) default =
      (([((1 : ℤ), (10 : ℚ)), (2, 20), (4, 30)].getD (0 + 1) default),
        some ([((1 : ℤ), (10 : ℚ)), (2, 20), (4, 30)].getD 0 default).2) :=
  ⟨lag_positional_spec.1 dfGap "A",
   lag_positional_spec.2.2 [((1 : ℤ), (10 : ℚ)), (2, 20), (4, 30)] 0 (by decide)⟩

/-- Witness for C4 at a concrete series with eleven present values and
one missing entry: the value 2 is present in the winsorized output and
the band bounds hold for it. -/
theorem winsorize_spec_witness :
    quantileQ wSeries (1/10) ≤ 2 ∧ 2 ≤ quantileQ wSeries (1 - 1/10) := by
  have hmem : some 2 ∈ winsorize wSeries (1/10) := by
    norm_num [wSeries, winsorize, quantileQ, sortedVals, presentVals, interpQ, nthC,
      List.insertionSort, List.orderedInsert, Option.some_ne_none,
      min_self, List.getElem_cons_zero, List.getElem_cons_succ]
    simp
    norm_num
  exact (winsorize_spec wSeries (1/10) (by norm_num) (by norm_num)).1 2 hmem

/-- CLAIM C1 amended: the Policy Simulator refits its own pooled OLS on
the same lag-augmented, listwise-deleted panel the panel tab builds;
its coefficient therefore equals the panel tab's coefficient whenever
the panel tab is in its OLS fallback (`HAS_LM` false), for every joined
panel. -/
theorem simulator_equals_ols_fallback (df : List (String × (ℤ × ℚ × ℚ))) :
    simCoefficient df = panelCoefficient false df := by
  unfold simCoefficient panelCoefficient
  rfl

/-- COUNTEREXAMPLE to CLAIM C1: on the concrete panel `dfC1` the
fixed-effects coefficient reported by the panel tab under `HAS_LM`
(−15/26) differs from the pooled-OLS coefficient the policy tab
multiplies the shock by (−53/70) — the simulator does perform its own
estimation, and it does not track the fixed-effects fit.  The last two
conjuncts certify the two coefficient vectors against their normal
equations `XᵀX·β = Xᵀy`. -/
theorem policy_coef_ne_panel_fe :
    panelCoefficient true dfC1 = some (-(15/26)) ∧
    simCoefficient dfC1 = some (-(53/70)) ∧
    panelCoefficient true dfC1 ≠ simCoefficient dfC1 ∧
    matVecL (normalMat (feDesign (mkPdata dfC1))) betaFE =
      normalVec (feDesign (mkPdata dfC1)) ((mkPdata dfC1).map (fun r => r.growth)) ∧
    matVecL (normalMat (olsDesign (mkPdata dfC1))) betaOLS =
      normalVec (olsDesign (mkPdata dfC1)) ((mkPdata dfC1).map (fun r => r.growth)) := by
  have hpd : mkPdata dfC1 = pdataC1 := by decide
  have hy : pdataC1.map (fun r => r.growth) = [2, 1, 3, 2, 1, 3, 2, 4] := rfl
  have hto : (olsDesign pdataC1).transpose =
      [[1,1,1,1,1,1,1,1],[1,2,1,2,3,1,3,2],[1,2,1,3,2,1,3,2]] := rfl
  have htf : (feDesign pdataC1).transpose =
      [[1,1,1,1,1,1,1,1],[1,2,1,2,3,1,3,2],[1,2,1,3,2,1,3,2],[0,0,0,0,1,1,1,1],
       [0,1,0,0,0,1,0,0],[0,0,1,0,0,0,1,0],[0,0,0,1,0,0,0,1]] := rfl
  have hols : lstsq (olsDesign pdataC1) (pdataC1.map (fun r => r.growth)) = some betaOLS := by
    unfold lstsq normalMat normalVec
    rw [hto, hy]
    norm_num [dotL, solveLin, findPivot, betaOLS]
  have hfe : lstsq (feDesign pdataC1) (pdataC1.map (fun r => r.growth)) = some betaFE := by
    unfold lstsq normalMat normalVec
    rw [htf, hy]
    norm_num [dotL, solveLin, findPivot, betaFE]
  have hP : panelCoefficient true dfC1 = some (-(15/26)) := by
    show feFdiCoefOf (mkPdata dfC1) = _
    rw [hpd]
    unfold feFdiCoefOf
    rw [hfe]
    rfl
  have hS : simCoefficient dfC1 = some (-(53/70)) := by
    show olsFdiCoefOf (mkPdata dfC1) = _
    rw [hpd]
    unfold olsFdiCoefOf
    rw [hols]
    rfl
  refine ⟨hP, hS, ?_, ?_, ?_⟩
  · rw [hP, hS]
    simp only [ne_eq, Option.some.injEq]
    norm_num
  · rw [hpd]
    unfold matVecL normalMat normalVec
    rw [htf, hy]
    norm_num [dotL, betaFE]
  · rw [hpd]
    unfold matVecL normalMat normalVec
    rw [hto, hy]
    norm_num [dotL, betaOLS]

/-- Witness for C7: concrete lag selections and a concrete horizon. -/
theorem var_lag_selection_and_irf_witness :
    chooseLag (some 2) = 2 ∧ chooseLag (some 3) ≤ 3 ∧
    (irfVals []).getD 3 0 = maPhi [] 3 0 1 :=
  ⟨var_lag_selection_and_irf.2.2.1 2 (by norm_num),
   var_lag_selection_and_irf.2.2.2.2.1 3 (by norm_num),
   var_lag_selection_and_irf.2.2.2.2.2.2.1 [] 3 (by norm_num)⟩

end EconSummary
